import Mathlib

/-!
Shallow embedding of `nonebot-plugin-multincm` (files `msg_cache.py`,
`data_source.py`, `providers/song.py`) and proofs of the spec claims.

Modelling conventions:
* Python `dict` is modelled as an association list preserving insertion
  order, the way CPython dicts do; keys are unique in every reachable state.
* `time.time()` values are modelled as integers (the claims only use
  subtraction and ordering of timestamps).
* Python exceptions are modelled with `Except`; the remote service's parsed
  JSON responses are explicit inputs to the embedded functions.
-/

namespace MultiNcm

/-! ## `msg_cache.py` — `CacheManager` -/

namespace CacheManager

variable {K V : Type} [DecidableEq K]

/-- The backing store of `CacheManager(Generic[KT, VT], Dict[KT, Tuple[float, VT]])`:
an insertion-ordered mapping from key to `(insertion time, value)`. -/
abbrev Store (K V : Type) := List (K × ℤ × V)

/-- Raw lookup `super().get(__key)`: the raw `(time, value)` pair stored under a key,
`none` when absent. -/
def getPair (k : K) (c : Store K V) : Option (ℤ × V) :=
  (c.find? fun kv => decide (kv.1 = k)).map fun kv => kv.2

/-- Source `def get(self, __key, __default=None): it = super().get(__key); return it[1] if it else __default`.
A stored pair is a nonempty tuple, hence always truthy in Python, so the
value is returned exactly when the key is present. -/
def get (k : K) (d : V) (c : Store K V) : V :=
  match getPair k c with
  | some it => it.2
  | none => d

/-- Source `def __setitem__(self, __key, __value): super().__setitem__(__key, (time.time(), __value))`
(also `set`, which just delegates). Dict assignment replaces the pair in
place when the key exists and appends a new entry otherwise; `t` is the
current clock value. -/
def set (k : K) (t : ℤ) (v : V) (c : Store K V) : Store K V :=
  if c.any fun kv => decide (kv.1 = k) then
    c.map fun kv => if kv.1 = k then (k, t, v) else kv
  else
    c ++ [(k, t, v)]

/-- Python `del self[k]` on the backing dict. -/
def delitem (k : K) (c : Store K V) : Store K V :=
  c.filter fun kv => decide (kv.1 ≠ k)

/-- Source `def pop(self, __key, __default=None)`: `super().pop(__key)[1]` with the
`KeyError` turned into the default. Returns the popped value together with
the store after removal. -/
def pop (k : K) (d : V) (c : Store K V) : V × Store K V :=
  match c.find? fun kv => decide (kv.1 = k) with
  | some kv => (kv.2.2, delitem k c)
  | none => (d, c)

/-- Source `def clear_expired(self)`: iterate over `self.copy().items()` and
`del self[k]` every entry whose age `now_t - create_t` is at least
`config.ncm_msg_cache_time` (the parameter `thr`). -/
def clearExpired (now thr : ℤ) (c : Store K V) : Store K V :=
  c.foldl (fun acc e => if now - e.2.1 ≥ thr then delitem e.1 acc else acc) c

/-- The Boolean predicate on keys that `clearExpired` deletes: some entry of
the snapshot `l` with this key is at least `thr` old at time `now`. -/
def expiredKey (now thr : ℤ) (l : Store K V) (k : K) : Bool :=
  l.any fun e => decide (now - e.2.1 ≥ thr) && decide (e.1 = k)

end CacheManager

/-! ## `data_source.py` — pagination and the request wrapper -/

/-- Source `def get_offset_by_page_num(page, limit=config.ncm_list_limit): return limit * (page - 1)`. -/
def get_offset_by_page_num (page limit : ℤ) : ℤ :=
  limit * (page - 1)

/-- A parsed remote response `ret : Dict[str, Any]`: the optional `"code"`
field together with the rest of the payload. -/
structure NcmResp (α : Type) where
  code : Option ℤ
  body : α
  deriving DecidableEq

/-- Lookup `ret.get("code", 200)`: the response code, defaulting to 200 when the
field is absent. -/
def respCode {α : Type} (r : NcmResp α) : ℤ :=
  r.code.getD 200

/-- Source `async def ncm_request(api, ...)`: raise `RuntimeError` (carrying the
api's name and the raw response) when `ret.get("code", 200) != 200`,
otherwise return the parsed response unchanged. -/
def ncm_request {α : Type} (apiName : String) (r : NcmResp α) :
    Except (String × NcmResp α) (NcmResp α) :=
  if respCode r ≠ 200 then .error (apiName, r) else .ok r

/-! ## `data_source.py` / `providers/song.py` — track detail and the song resolver -/

/-- One item of the `"privileges"` array of a `GetTrackDetail` response
(fields used by the code: `id` and the bitrate tier `pl`). -/
structure Privilege where
  id : ℤ
  pl : ℤ
  deriving DecidableEq

/-- One item of the `"songs"` array of a `GetTrackDetail` response; only the
`"id"` field is inspected by the embedded code, the remaining fields are
passed through to the `Song` model. -/
structure SongInfo where
  id : ℤ
  deriving DecidableEq

/-- The pydantic `Song` model produced by `get_track_info`: the raw song
item together with its (possibly defaulted) `privilege`. -/
structure Song where
  info : SongInfo
  privilege : Privilege
  deriving DecidableEq

/-- The body of a parsed `GetTrackDetail` response. -/
structure TrackDetailBody where
  songs : List SongInfo
  privileges : List Privilege
  deriving DecidableEq

/-- Dict comprehension `{y.id: y for y in [Privilege(**x) for x in res["privileges"]]}` looked
up at key `i`: in a Python dict comprehension a later item with the same key
overwrites an earlier one, so the lookup finds the last matching item. -/
def privDict (ps : List Privilege) (i : ℤ) : Option Privilege :=
  ps.reverse.find? fun p => decide (p.id = i)

/-- The list comprehension inside `get_track_info`: each raw song becomes a
`Song` whose `privilege` is the response's record for its id, or
`Privilege(id=song_id, pl=128000)` when the response has none. -/
def buildTrackInfo (songs : List SongInfo) (privileges : List Privilege) : List Song :=
  songs.map fun x =>
    { info := x
      privilege :=
        match privDict privileges x.id with
        | some p => p
        | none => { id := x.id, pl := 128000 } }

/-- Python exceptions reachable from the song resolver. -/
inductive PyError where
  | indexError
  | valueError (msg : String)
  | runtimeError (apiName : String) (raw : NcmResp TrackDetailBody)
  deriving DecidableEq

/-- Source `async def get_track_info(ids, **kwargs)` applied to the parsed
`GetTrackDetail` response `r`: `ncm_request` checks the response code, then
the comprehension attaches privileges. -/
def get_track_info (r : NcmResp TrackDetailBody) : Except PyError (List Song) :=
  match ncm_request "GetTrackDetail" r with
  | .error (n, raw) => .error (.runtimeError n raw)
  | .ok r => .ok (buildTrackInfo r.body.songs r.body.privileges)

/-- Python truthiness of a `Song` model instance: the class defines neither
`__bool__` nor `__len__`, so every instance is truthy. -/
def songTruthy (_ : Song) : Bool := true

/-- Indexing `xs[0]` on a Python list: `IndexError` when the list is empty. -/
def pyIndex0 {α : Type} (xs : List α) : Except PyError α :=
  match xs.head? with
  | some x => .ok x
  | none => .error .indexError

/-- Source `Song.from_id(song_id)`: `info = (await get_track_info([song_id]))[0]`,
then `if not info: raise ValueError("Song not found")`, else wrap it.
`r` is the remote's parsed reply to `GetTrackDetail([song_id])`. -/
def Song.from_id (r : NcmResp TrackDetailBody) (song_id : ℤ) : Except PyError Song :=
  match get_track_info r with
  | .error e => .error e
  | .ok infos =>
    match pyIndex0 infos with
    | .error e => .error e
    | .ok info =>
      if songTruthy info then .ok info else .error (.valueError "Song not found")

/-- Source `SongSearcher.search_by_id(arg_id)`: `Song.from_id` with only
`ValueError` converted to `None`; every other exception propagates. -/
def search_by_id (r : NcmResp TrackDetailBody) (arg_id : ℤ) :
    Except PyError (Option Song) :=
  match Song.from_id r arg_id with
  | .ok s => .ok (some s)
  | .error (.valueError _) => .ok none
  | .error e => .error e

/-! ## `providers/song.py` — result table ranks -/

/-- Modelled from the spec: `BaseSearcher._calc_index_offset` lives in
`providers/base.py`, which is not part of the given sources; the spec states
that rank numbering starts at `offset + 1` where `offset` is the search
request's offset for the page. -/
def calc_index_offset (page limit : ℤ) : ℤ :=
  get_offset_by_page_num page limit + 1

/-- Python `enumerate(xs, start)`. -/
def pyEnumerate {α : Type} (start : ℤ) : List α → List (ℤ × α)
  | [] => []
  | x :: xs => (start, x) :: pyEnumerate (start + 1) xs

/-- The rows of `SongSearcher._build_search_resp`: `ValueError` when the
response has no songs, otherwise one row per song from
`enumerate(resp.songs, self._calc_index_offset(page))`, keeping the rank
`i` and the song the row renders. -/
def build_search_resp (page limit : ℤ) (songs : List SongInfo) :
    Except PyError (List (ℤ × SongInfo)) :=
  if songs.isEmpty then .error (.valueError "No song in raw response")
  else .ok (pyEnumerate (calc_index_offset page limit) songs)

/-! ## `data_source.py` — `login` -/

/-- Which branch of `login` performed the authentication attempt. -/
inductive LoginPath where
  | restored
  | credentials
  | guest
  deriving DecidableEq

/-- Observable outcome of a `login` run: the branch taken by each attempt,
the session file's existence at the start of each attempt, its existence
when the run ends, and whether the run succeeded (`false` models the final
`raise RuntimeError`). -/
structure LoginOutcome where
  paths : List LoginPath
  startFiles : List Bool
  fileAfter : Bool
  success : Bool
  deriving DecidableEq

/-- Condition `(config.ncm_phone or config.ncm_email) and (config.ncm_password or config.ncm_password_hash)`. -/
def hasCredentials (phone email password passwordHash : Bool) : Bool :=
  (phone || email) && (password || passwordHash)

/-- Source `async def login(retry=True)`. Inputs: the `retry` parameter, whether
`SESSION_FILE` exists, whether credentials are configured (`cred`), and the
outcomes of the successive `GetCurrentLoginStatus` verifications (one list
element per attempt; the code always receives one, so `[]` is never reached
from a run that starts with a nonempty list). The branch mirrors the code:
a restored session keeps `retry`, the credentials branch writes the session
file and sets `retry = False`, the guest branch sets `retry = False`; on
verification failure the session file is deleted if present, then the
function either recurses once with `retry=False` or raises. -/
def login (retry fileExists cred : Bool) : List Bool → LoginOutcome
  | [] => { paths := [], startFiles := [], fileAfter := fileExists, success := false }
  | ok :: rest =>
    let path : LoginPath :=
      if fileExists then .restored else if cred then .credentials else .guest
    let retryNow := if fileExists then retry else false
    let fileAfterAttempt := if fileExists then true else if cred then true else false
    if ok then
      { paths := [path], startFiles := [fileExists], fileAfter := fileAfterAttempt,
        success := true }
    else if retryNow then
      let r := login false false cred rest
      { paths := path :: r.paths, startFiles := fileExists :: r.startFiles,
        fileAfter := r.fileAfter, success := r.success }
    else
      { paths := [path], startFiles := [fileExists], fileAfter := false,
        success := false }

/-! ## Helper lemmas about the cache store -/

namespace CacheManager

variable {K V : Type} [DecidableEq K]

lemma set_key_mem {k : K} {t : ℤ} {v : V} {c : Store K V} {e : K × ℤ × V}
    (he : e ∈ set k t v c) (hk : e.1 = k) : e = (k, t, v) := by
  unfold set at he
  split at he
  · obtain ⟨kv, hkv, rfl⟩ := List.mem_map.1 he
    by_cases h : kv.1 = k
    · simp [h]
    · simp only [if_neg h] at hk
      exact absurd hk h
  · rename_i hany
    rcases List.mem_append.1 he with h | h
    · exfalso
      have : c.any (fun kv => decide (kv.1 = k)) = true :=
        List.any_eq_true.2 ⟨e, h, by simpa using hk⟩
      simp [this] at hany
    · simpa using h

lemma find?_map_replace {k : K} {t : ℤ} {v : V} {c : Store K V}
    (hany : c.any (fun kv => decide (kv.1 = k)) = true) :
    (c.map fun kv => if kv.1 = k then (k, t, v) else kv).find?
        (fun kv => decide (kv.1 = k)) = some (k, t, v) := by
  induction c with
  | nil => simp at hany
  | cons a c ih =>
    by_cases h : a.1 = k
    · simp [List.find?, h]
    · have hany' : c.any (fun kv => decide (kv.1 = k)) = true := by
        simpa [List.any_cons, h] using hany
      simpa [List.find?, h] using ih hany'

omit [DecidableEq K] in
lemma find?_append_of_any_false {p : K × ℤ × V → Bool} {c l : Store K V}
    (hany : c.any p = false) : (c ++ l).find? p = l.find? p := by
  induction c with
  | nil => simp
  | cons a c ih =>
    simp only [List.any_cons, Bool.or_eq_false_iff] at hany
    simpa [List.find?, hany.1] using ih hany.2

lemma find?_set (k : K) (t : ℤ) (v : V) (c : Store K V) :
    (set k t v c).find? (fun kv => decide (kv.1 = k)) = some (k, t, v) := by
  unfold set
  split
  · rename_i hany
    exact find?_map_replace hany
  · rename_i hany
    have hany' : c.any (fun kv => decide (kv.1 = k)) = false := by
      cases hh : c.any fun kv => decide (kv.1 = k)
      · rfl
      · exact absurd hh hany
    rw [find?_append_of_any_false hany']
    simp [List.find?]

lemma getPair_set (k : K) (t : ℤ) (v : V) (c : Store K V) :
    getPair k (set k t v c) = some (t, v) := by
  simp [getPair, find?_set]

lemma find?_delitem (k : K) (c : Store K V) :
    (delitem k c).find? (fun kv => decide (kv.1 = k)) = none := by
  refine List.find?_eq_none.2 fun e he => ?_
  have := (List.mem_filter.1 he).2
  simp at this ⊢
  exact this

lemma foldl_delitem_eq_filter (now thr : ℤ) (l : Store K V) :
    ∀ acc : Store K V,
      l.foldl (fun acc e => if now - e.2.1 ≥ thr then delitem e.1 acc else acc) acc
        = acc.filter fun kv => !expiredKey now thr l kv.1 := by
  induction l with
  | nil =>
    intro acc
    simp [expiredKey]
  | cons e l ih =>
    intro acc
    by_cases h : now - e.2.1 ≥ thr
    · rw [List.foldl_cons, if_pos h, ih, delitem, List.filter_filter]
      refine List.filter_congr fun kv _ => ?_
      by_cases hk : e.1 = kv.1
      · simp [expiredKey, h, hk]
      · have hk' : ¬kv.1 = e.1 := fun hh => hk hh.symm
        simp [expiredKey, h, hk, hk']
    · rw [List.foldl_cons, if_neg h, ih]
      refine List.filter_congr fun kv _ => ?_
      simp [expiredKey, h]

lemma clearExpired_eq_filter (now thr : ℤ) (c : Store K V) :
    clearExpired now thr c = c.filter fun kv => !expiredKey now thr c kv.1 :=
  foldl_delitem_eq_filter now thr c c

omit [DecidableEq K] in
lemma eq_of_keys_nodup {c : Store K V} (hnd : (c.map Prod.fst).Nodup)
    {e e' : K × ℤ × V} (he : e ∈ c) (he' : e' ∈ c) (hk : e.1 = e'.1) : e = e' := by
  induction c with
  | nil => cases he
  | cons a c ih =>
    rw [List.map_cons, List.nodup_cons] at hnd
    rcases List.mem_cons.1 he with h1 | h1
    · rcases List.mem_cons.1 he' with h2 | h2
      · rw [h1, h2]
      · exfalso
        apply hnd.1
        rw [← h1, hk]
        exact List.mem_map_of_mem Prod.fst h2
    · rcases List.mem_cons.1 he' with h2 | h2
      · exfalso
        apply hnd.1
        rw [← h2, ← hk]
        exact List.mem_map_of_mem Prod.fst h1
      · exact ih hnd.2 h1 h2

end CacheManager

lemma pyEnumerate_fst_getElem? {α : Type} (xs : List α) :
    ∀ (start : ℤ) (i : ℕ), i < xs.length →
      ((pyEnumerate start xs).map Prod.fst)[i]? = some (start + i) := by
  induction xs with
  | nil =>
    intro start i h
    simp at h
  | cons x xs ih =>
    intro start i h
    cases i with
    | zero => simp [pyEnumerate]
    | succ i =>
      have h' : i < xs.length := by simpa using h
      simp only [pyEnumerate, List.map_cons, List.getElem?_cons_succ]
      rw [ih (start + 1) i h']
      congr 1
      push_cast
      ring

/-! ## Claim theorems -/

/-- C8: for every page number and page size, the pagination offset computed
by `get_offset_by_page_num` equals `limit * (page - 1)`; in particular the
offset for page 1 is 0. -/
theorem get_offset_by_page_num_spec (page limit : ℤ) :
    get_offset_by_page_num page limit = limit * (page - 1)
    ∧ get_offset_by_page_num 1 limit = 0 :=
  ⟨rfl, by simp [get_offset_by_page_num]⟩

/-- C7: `ncm_request` raises an error carrying the failing call's name and
the raw response exactly when the parsed response's code (defaulting to 200)
is not 200, and otherwise returns the parsed response unchanged. -/
theorem ncm_request_error_policy {α : Type} (apiName : String) (r : NcmResp α) :
    (respCode r ≠ 200 → ncm_request apiName r = .error (apiName, r))
    ∧ (respCode r = 200 → ncm_request apiName r = .ok r) := by
  constructor <;> intro h <;> simp [ncm_request, h]

/-- Witness for C7: a failing response code raises with the call name and
raw response, a success code returns the response unchanged. -/
theorem ncm_request_error_policy_witness :
    ncm_request "GetSearchResult" ({ code := some 301, body := 0 } : NcmResp ℤ)
        = .error ("GetSearchResult", { code := some 301, body := 0 })
    ∧ ncm_request "GetSearchResult" ({ code := some 200, body := 0 } : NcmResp ℤ)
        = .ok { code := some 200, body := 0 } :=
  ⟨(ncm_request_error_policy "GetSearchResult" _).1 (by decide),
   (ncm_request_error_policy "GetSearchResult" _).2 (by decide)⟩

/-- C10: a parsed response with no `"code"` field at all is treated as a
success — `ret.get("code", 200)` substitutes 200 — so `ncm_request` returns
it without raising. -/
theorem ncm_request_missing_code_success {α : Type} (apiName : String)
    (r : NcmResp α) (h : r.code = none) : ncm_request apiName r = .ok r := by
  simp [ncm_request, respCode, h]

/-- Witness for C10 at a concrete code-less response. -/
theorem ncm_request_missing_code_success_witness :
    ncm_request "GetTrackLyrics" ({ code := none, body := 0 } : NcmResp ℤ)
        = .ok { code := none, body := 0 } :=
  ncm_request_missing_code_success "GetTrackLyrics" _ rfl

/-- C1 counterevidence: when the remote replies to `GetTrackDetail` for a
nonexistent catalog id with a success code and an empty `songs` array,
`search_by_id` propagates `IndexError` from `(await get_track_info([song_id]))[0]`
instead of returning `None` — only `ValueError` is caught, and the
`if not info` guard is unreachable because indexing an empty list raises
first. Transport failures (non-200 code) are propagated, as the claim says. -/
theorem search_by_id_missing_id_raises :
    search_by_id { code := some 200, body := { songs := [], privileges := [] } } 999999999
        = .error .indexError
    ∧ search_by_id { code := some 502, body := { songs := [], privileges := [] } } 999999999
        = .error (.runtimeError "GetTrackDetail"
            { code := some 502, body := { songs := [], privileges := [] } }) :=
  ⟨rfl, rfl⟩

/-- C9: every song produced by `get_track_info` whose id has no
permission/privilege record in the response is assigned the default record
`Privilege(id=song_id, pl=128000)`. -/
theorem track_info_default_privilege (r : NcmResp TrackDetailBody)
    (songs : List Song) (s : Song) (hok : get_track_info r = .ok songs)
    (hs : s ∈ songs) (hmiss : ∀ p ∈ r.body.privileges, p.id ≠ s.info.id) :
    s.privilege = { id := s.info.id, pl := 128000 } := by
  unfold get_track_info ncm_request at hok
  by_cases hc : respCode r ≠ 200
  · simp [hc] at hok
  · simp [hc] at hok
    subst hok
    obtain ⟨x, hx, rfl⟩ := List.mem_map.1 hs
    have hnone : privDict r.body.privileges x.id = none := by
      refine List.find?_eq_none.2 fun p hp => ?_
      have hp' : p ∈ r.body.privileges := List.mem_reverse.1 hp
      simpa using hmiss p hp'
    simp [hnone]

/-- Witness for C9: a concrete detail response whose only privilege record
is for another id yields the baseline 128000 tier. -/
theorem track_info_default_privilege_witness :
    ({ info := { id := 5 }, privilege := { id := 5, pl := 128000 } } : Song).privilege
        = { id := 5, pl := 128000 } :=
  track_info_default_privilege
    { code := none,
      body := { songs := [{ id := 5 }], privileges := [{ id := 7, pl := 999000 }] } }
    [{ info := { id := 5 }, privilege := { id := 5, pl := 128000 } }]
    { info := { id := 5 }, privilege := { id := 5, pl := 128000 } }
    rfl (by simp) (by decide)

/-- C5: for a nonempty result page, the displayed ranks start at
`limit * (page - 1) + 1` and increase by one per row — with page size 20,
page 2 starts at rank 21. -/
theorem search_rank_offset (page limit : ℤ) (songs : List SongInfo)
    (rows : List (ℤ × SongInfo))
    (hok : build_search_resp page limit songs = .ok rows) :
    (rows.map Prod.fst)[0]? = some (limit * (page - 1) + 1)
    ∧ ∀ i : ℕ, i < songs.length →
        (rows.map Prod.fst)[i]? = some (limit * (page - 1) + 1 + i) := by
  unfold build_search_resp at hok
  by_cases hne : songs.isEmpty
  · simp [hne] at hok
  · simp [hne] at hok
    subst hok
    have hpos : 0 < songs.length := by
      cases songs with
      | nil => simp at hne
      | cons a l => simp
    constructor
    · have h0 := pyEnumerate_fst_getElem? songs (calc_index_offset page limit) 0 hpos
      simpa [calc_index_offset, get_offset_by_page_num] using h0
    · intro i hi
      have hgen := pyEnumerate_fst_getElem? songs (calc_index_offset page limit) i hi
      simpa [calc_index_offset, get_offset_by_page_num] using hgen

/-- Witness for C5: page 2 with page size 20 and one returned song shows
rank 21 in its first row. -/
theorem search_rank_offset_witness :
    (([((21:ℤ), ({ id := 1 } : SongInfo))]).map Prod.fst)[0]?
        = some (20 * ((2:ℤ) - 1) + 1) :=
  (search_rank_offset 2 20 [{ id := 1 }] [(21, { id := 1 })] rfl).1

/-- C2: with the restored-from-disk first attempt, a failed verification
deletes the session blob and retries exactly once through the fresh path
(credentials when configured, guest otherwise), whose own verification
outcome decides the run; with a credentials or guest first attempt, a failed
verification deletes any blob and fails fatally with no retry. -/
theorem login_retry_policy (cred v : Bool) (vs : List Bool) :
    login true true cred (false :: v :: vs)
        = { paths := [.restored, if cred then .credentials else .guest],
            startFiles := [true, false],
            fileAfter := if v then (if cred then true else false) else false,
            success := v }
    ∧ login true false true (false :: vs)
        = { paths := [.credentials], startFiles := [false],
            fileAfter := false, success := false }
    ∧ login true false false (false :: vs)
        = { paths := [.guest], startFiles := [false],
            fileAfter := false, success := false } := by
  refine ⟨?_, ?_, ?_⟩ <;> cases cred <;> cases v <;> simp [login]

/-- C3: a `clear_expired` sweep at time `now` with threshold `thr` keeps an
entry of the cache store if and only if its age `now - t` is strictly below
the threshold. -/
theorem clear_expired_age_iff {K V : Type} [DecidableEq K] (now thr : ℤ)
    (c : CacheManager.Store K V) (hnd : (c.map Prod.fst).Nodup)
    (k : K) (t : ℤ) (v : V) (hmem : (k, t, v) ∈ c) :
    (k, t, v) ∈ CacheManager.clearExpired now thr c ↔ now - t < thr := by
  rw [CacheManager.clearExpired_eq_filter, List.mem_filter]
  constructor
  · rintro ⟨-, hkeep⟩
    by_contra hge
    push_neg at hge
    have hexp : CacheManager.expiredKey now thr c k = true :=
      List.any_eq_true.2 ⟨(k, t, v), hmem, by simp [hge]⟩
    simp [hexp] at hkeep
  · intro hlt
    refine ⟨hmem, ?_⟩
    have hfalse : CacheManager.expiredKey now thr c k = false := by
      cases hh : CacheManager.expiredKey now thr c k
      · rfl
      · exfalso
        obtain ⟨e, he, hpe⟩ := List.any_eq_true.1 hh
        simp only [Bool.and_eq_true, decide_eq_true_eq] at hpe
        have he2 : e = (k, t, v) :=
          CacheManager.eq_of_keys_nodup hnd he hmem hpe.2
        rw [he2] at hpe
        exact absurd hpe.1 (not_le.2 hlt)
    simp [hfalse]

/-- Witness for C3: at `now = 60`, threshold 60, the entry inserted at time
0 has age exactly the threshold, and the proved equivalence reduces its
survival to the false inequality `60 - 0 < 60`. -/
theorem clear_expired_age_iff_witness :
    (((1:ℤ), (0:ℤ), (0:ℤ)) ∈ CacheManager.clearExpired 60 60
        [((1:ℤ), (0:ℤ), (0:ℤ)), ((2:ℤ), (50:ℤ), (0:ℤ))])
      ↔ (60:ℤ) - 0 < 60 :=
  clear_expired_age_iff 60 60 _ (by decide) 1 0 0 (by decide)

/-- C4: overwriting a key stores the new value with the new clock value, so
the entry's recorded pair is the second write's, and a sweep whose `now` is
within the threshold of the second write keeps the entry regardless of the
first write's time. -/
theorem set_overwrite_resets_age {K V : Type} [DecidableEq K]
    (c : CacheManager.Store K V) (k : K) (t1 t2 now thr : ℤ) (v1 v2 : V) :
    CacheManager.getPair k (CacheManager.set k t2 v2 (CacheManager.set k t1 v1 c))
        = some (t2, v2)
    ∧ (now - t2 < thr →
        (k, t2, v2) ∈ CacheManager.clearExpired now thr
          (CacheManager.set k t2 v2 (CacheManager.set k t1 v1 c))) := by
  refine ⟨CacheManager.getPair_set k t2 v2 _, fun hlt => ?_⟩
  have hmem : (k, t2, v2) ∈ CacheManager.set k t2 v2 (CacheManager.set k t1 v1 c) :=
    List.mem_of_find?_eq_some (CacheManager.find?_set k t2 v2 _)
  rw [CacheManager.clearExpired_eq_filter, List.mem_filter]
  refine ⟨hmem, ?_⟩
  have hfalse : CacheManager.expiredKey now thr
      (CacheManager.set k t2 v2 (CacheManager.set k t1 v1 c)) k = false := by
    cases hh : CacheManager.expiredKey now thr
        (CacheManager.set k t2 v2 (CacheManager.set k t1 v1 c)) k
    · rfl
    · exfalso
      obtain ⟨e, he, hpe⟩ := List.any_eq_true.1 hh
      simp only [Bool.and_eq_true, decide_eq_true_eq] at hpe
      have he2 : e = (k, t2, v2) := CacheManager.set_key_mem he hpe.2
      rw [he2] at hpe
      exact absurd hpe.1 (not_le.2 hlt)
  simp [hfalse]

/-- Witness for C4: key 1 written at time 0 then rewritten at time 100; at
`now = 150` with threshold 60 the first write is past the threshold but the
entry survives the sweep, judged by the second write's time. -/
theorem set_overwrite_resets_age_witness :
    CacheManager.getPair 1
        (CacheManager.set 1 100 (7:ℤ) (CacheManager.set (1:ℤ) 0 5 []))
      = some (100, 7)
    ∧ ((1:ℤ), (100:ℤ), (7:ℤ)) ∈ CacheManager.clearExpired 150 60
        (CacheManager.set 1 100 7 (CacheManager.set 1 0 5 [])) :=
  ⟨(set_overwrite_resets_age [] 1 0 100 150 60 5 7).1,
   (set_overwrite_resets_age [] 1 0 100 150 60 5 7).2 (by decide)⟩

/-- C6: `set` then `get` returns the stored value; `pop` after `set` returns
the stored value and removes the key so a following `get` yields the
default; `get` and `pop` on an absent key return the supplied default
without failing. -/
theorem cache_set_get_pop_spec {K V : Type} [DecidableEq K]
    (c : CacheManager.Store K V) (k : K) (t : ℤ) (v d d' : V) :
    CacheManager.get k d (CacheManager.set k t v c) = v
    ∧ (CacheManager.pop k d' (CacheManager.set k t v c)).1 = v
    ∧ CacheManager.get k d (CacheManager.pop k d' (CacheManager.set k t v c)).2 = d
    ∧ (CacheManager.getPair k c = none →
        CacheManager.get k d c = d ∧ CacheManager.pop k d c = (d, c)) := by
  have hfind := CacheManager.find?_set k t v c
  refine ⟨?_, ?_, ?_, fun habs => ?_⟩
  · simp [CacheManager.get, CacheManager.getPair_set]
  · simp [CacheManager.pop, hfind]
  · simp [CacheManager.pop, hfind, CacheManager.get, CacheManager.getPair,
      CacheManager.find?_delitem]
  · have hf : c.find? (fun kv => decide (kv.1 = k)) = none := by
      unfold CacheManager.getPair at habs
      exact Option.map_eq_none'.1 habs
    constructor
    · simp [CacheManager.get, CacheManager.getPair, hf]
    · simp [CacheManager.pop, hf]

/-- Witness for C6 on the empty store: both absent-key operations return the
supplied default. -/
theorem cache_set_get_pop_spec_witness :
    CacheManager.get 1 (3:ℤ) ([] : CacheManager.Store ℤ ℤ) = 3
    ∧ CacheManager.pop 1 (3:ℤ) ([] : CacheManager.Store ℤ ℤ) = (3, []) :=
  (cache_set_get_pop_spec [] 1 0 2 3 3).2.2.2 rfl

end MultiNcm
